import Mathlib

/-!
A formal model of the MCAgents scheduling-and-broadcast kernel.

This development gives a shallow embedding of the core of the MCAgents
repository: the shared `AgentState` record (`src/agent/agent_state.ts`),
the `CognitiveController` (`src/agent/cognitive_controller.ts`) with its
bottleneck reduction, decision-text parsing, decision cycle and broadcast,
and the base `Module` lifecycle / scheduler (`src/agent/modules/module.ts`).

JavaScript runtime values that may be absent (`undefined`) are modelled with
`Option`; JavaScript truthiness (`x || dflt`) is modelled explicitly by
`jsTruthy`/`orElseJson`.  Asynchronous control flow (the `setInterval`
scheduler of `Module`, the `while`-loop of the controller) is modelled as a
discrete state machine driven by explicit scheduler actions, reflecting the
single-threaded cooperative semantics of the JS event loop.
-/

/-- JSON-like runtime values: the shape of `JSON.parse` results and of the
free-form `Record<string, any>` fields of the agent state. -/
inductive Json where
  | null : Json
  | bool (b : Bool) : Json
  | num (n : Int) : Json
  | str (s : String) : Json
  | arr (elems : List Json) : Json
  | obj (fields : List (String × Json)) : Json

/-- JavaScript truthiness of a runtime value (objects and arrays are always
truthy; `null`, `0`, `""` and `false` are falsy). -/
def jsTruthy : Json → Bool
  | Json.null => false
  | Json.bool b => b
  | Json.num n => n != 0
  | Json.str s => s != ""
  | Json.arr _ => true
  | Json.obj _ => true

/-- Property access on a JS record: for duplicate keys the last assignment
wins, so we look the key up in the reversed field list. -/
def recGet (fields : List (String × Json)) (k : String) : Option Json :=
  fields.reverse.lookup k

/-- Property access `j.k` on an arbitrary runtime value: `undefined` (none)
unless `j` is an object with field `k`. -/
def jsonGet (j : Json) (k : String) : Option Json :=
  match j with
  | Json.obj fields => recGet fields k
  | _ => none

/-- The JS expression `x || dflt` where `x` may be `undefined`:
yields `dflt` when `x` is absent or falsy, else `x` itself. -/
def orElseJson (x : Option Json) (dflt : Json) : Json :=
  match x with
  | some j => if jsTruthy j then j else dflt
  | none => dflt

/-- A 3-D coordinate (the `location` field of the agent state). -/
structure Vec3 where
  x : Int
  y : Int
  z : Int
deriving DecidableEq

/-- Model of `Decision` from `cognitive_controller.ts`.  `action`, `parameters` and
`reasoning` are runtime values (the TS type annotations are not enforced at
runtime, and `_parseDecisionResponse` can propagate arbitrary JSON values
into them); `timestamp` is the creation time in abstract time units. -/
structure Decision where
  action : Json
  parameters : Json
  reasoning : Json
  timestamp : Nat

/-- Model of `AgentState` from `agent_state.ts`.  Every field is `Option`al because at
runtime a field can be absent (`undefined`): the controller's code guards all
its reads accordingly (`|| {}`, `if (agentState.memory)`, …). -/
structure AgentState where
  inventory : Option (List (String × Int))
  location : Option Vec3
  memory : Option (List (String × Json))
  social : Option (List (String × Json))
  actionAwareness : Option (List (String × Json))
  decisions : Option (List Decision)

/-- Model of `createAgentState` from `agent_state.ts`: every field present, in its
default/empty value. -/
def createAgentState : AgentState :=
  { inventory := some []
    location := some ⟨0, 0, 0⟩
    memory := some []
    social := some []
    actionAwareness := some []
    decisions := some [] }

/-- The bottlenecked projection produced by
`CognitiveController._createBottleneckedState` (a `Partial<AgentState>`
whose `inventory`/`location` keys are always set, and whose
`memory`/`actionAwareness` keys are set only conditionally). -/
structure BottleneckedState where
  inventory : List (String × Int)
  location : Vec3
  memory : Option Json
  actionAwareness : Option Json

/-- Model of `CognitiveController._createBottleneckedState`: copy `inventory` and
`location` (defaulting to empty map / origin), and — only when the
corresponding field is present — reduce `memory` to
`memory.relevantMemories || []` and `actionAwareness` to
`actionAwareness.actionFeedback || []`.  A total function on all runtime
agent states. -/
def createBottleneckedState (agentState : AgentState) : BottleneckedState :=
  { inventory := agentState.inventory.getD []
    location := agentState.location.getD ⟨0, 0, 0⟩
    memory := agentState.memory.map
      (fun m => orElseJson (recGet m "relevantMemories") (Json.arr []))
    actionAwareness := agentState.actionAwareness.map
      (fun a => orElseJson (recGet a "actionFeedback") (Json.arr [])) }

/-- Log entries emitted by the kernel, by origin. -/
inductive LogEntry where
  | noJsonWarning : LogEntry
  | parseErrorLog : LogEntry
  | broadcastError (key : String) : LogEntry
  | moduleError (name : String) : LogEntry
deriving DecidableEq

/-- The character `{` (written via its code point). -/
def lbrace : Char := Char.ofNat 123

/-- The character `}` (written via its code point). -/
def rbrace : Char := Char.ofNat 125

/-- The regex match `response.match(/\x7b.*\x7d/s)`: the span from the first
`\x7b` to the last `\x7d`, provided the latter comes strictly after the
former (leftmost-greedy match with `.` matching newlines). -/
def extractJsonSpan (s : String) : Option String :=
  let cs := s.data
  match cs.findIdx? (fun c => c == lbrace) with
  | none => none
  | some p =>
    match cs.reverse.findIdx? (fun c => c == rbrace) with
    | none => none
    | some r =>
      let q := cs.length - 1 - r
      if p < q then some (String.mk ((cs.drop p).take (q - p + 1))) else none

/-- Whitespace skipping for the JSON grammar. -/
def skipWs : List Char → List Char
  | [] => []
  | c :: cs =>
    if c == ' ' || c == '\n' || c == '\t' || c == '\r' then skipWs cs
    else c :: cs

/-- Parse the body of a JSON string literal (opening quote already
consumed), handling the simple escape sequences; fails on invalid escapes,
`\u` escapes and raw control characters, as `JSON.parse` does (modulo `\u`,
which this model conservatively rejects). -/
def parseStringBody : List Char → List Char → Option (String × List Char)
  | [], _ => none
  | '"' :: rest, acc => some (String.mk acc.reverse, rest)
  | '\\' :: rest, acc =>
    match rest with
    | [] => none
    | e :: rest' =>
      if e == '"' then parseStringBody rest' ('"' :: acc)
      else if e == '\\' then parseStringBody rest' ('\\' :: acc)
      else if e == '/' then parseStringBody rest' ('/' :: acc)
      else if e == 'n' then parseStringBody rest' ('\n' :: acc)
      else if e == 't' then parseStringBody rest' ('\t' :: acc)
      else if e == 'r' then parseStringBody rest' ('\r' :: acc)
      else if e == 'b' then parseStringBody rest' (Char.ofNat 8 :: acc)
      else if e == 'f' then parseStringBody rest' (Char.ofNat 12 :: acc)
      else none
  | c :: rest, acc =>
    if c.toNat < 32 then none else parseStringBody rest (c :: acc)

/-- Accumulate a run of decimal digits. -/
def takeDigits : List Char → Nat → Nat × List Char
  | [], acc => (acc, [])
  | c :: cs, acc =>
    if c.isDigit then takeDigits cs (acc * 10 + (c.toNat - 48))
    else (acc, c :: cs)

/-- Parse a JSON number.  Integer syntax only: fractional or exponent parts
are rejected (none of the claims involve non-integer literals). -/
def parseNumber (cs : List Char) : Option (Int × List Char) :=
  let (neg, cs') :=
    match cs with
    | '-' :: rest => (true, rest)
    | _ => (false, cs)
  match cs' with
  | [] => none
  | c :: _ =>
    if c.isDigit then
      let (n, rest) := takeDigits cs' 0
      match rest with
      | [] => some (if neg then -(n : Int) else (n : Int), [])
      | d :: _ =>
        if d == '.' || d == 'e' || d == 'E' then none
        else some (if neg then -(n : Int) else (n : Int), rest)
    else none

/-- Check that `cs` begins with the literal word `w`; return the remainder. -/
def expectWord (w : List Char) (cs : List Char) : Option (List Char) :=
  match w, cs with
  | [], rest => some rest
  | x :: w', c :: cs' => if x == c then expectWord w' cs' else none
  | _ :: _, [] => none

mutual

/-- Recursive-descent parser for a JSON value, fuelled for termination. -/
def parseVal : Nat → List Char → Option (Json × List Char)
  | 0, _ => none
  | fuel + 1, cs =>
    match skipWs cs with
    | [] => none
    | c :: rest =>
      if c == lbrace then
        match skipWs rest with
        | d :: rest' =>
          if d == rbrace then some (Json.obj [], rest')
          else parseMembers fuel (d :: rest') []
        | [] => none
      else if c == '[' then
        match skipWs rest with
        | d :: rest' =>
          if d == ']' then some (Json.arr [], rest')
          else parseItems fuel (d :: rest') []
        | [] => none
      else if c == '"' then
        match parseStringBody rest [] with
        | some (s, rest') => some (Json.str s, rest')
        | none => none
      else if c == 't' then
        match expectWord ['r', 'u', 'e'] rest with
        | some rest' => some (Json.bool true, rest')
        | none => none
      else if c == 'f' then
        match expectWord ['a', 'l', 's', 'e'] rest with
        | some rest' => some (Json.bool false, rest')
        | none => none
      else if c == 'n' then
        match expectWord ['u', 'l', 'l'] rest with
        | some rest' => some (Json.null, rest')
        | none => none
      else
        match parseNumber (c :: rest) with
        | some (n, rest') => some (Json.num n, rest')
        | none => none

/-- Parse the members of a JSON object (after `\x7b` and leading
whitespace), accumulating parsed fields. -/
def parseMembers (fuel : Nat) (cs : List Char) (acc : List (String × Json)) :
    Option (Json × List Char) :=
  match fuel with
  | 0 => none
  | fuel + 1 =>
    match skipWs cs with
    | '"' :: rest =>
      match parseStringBody rest [] with
      | none => none
      | some (k, rest') =>
        match skipWs rest' with
        | ':' :: rest'' =>
          match parseVal fuel rest'' with
          | none => none
          | some (v, rest''') =>
            match skipWs rest''' with
            | ',' :: more => parseMembers fuel more (acc ++ [(k, v)])
            | d :: more =>
              if d == rbrace then some (Json.obj (acc ++ [(k, v)]), more)
              else none
            | [] => none
        | _ => none
    | _ => none

/-- Parse the items of a JSON array (after `[` and leading whitespace),
accumulating parsed elements. -/
def parseItems (fuel : Nat) (cs : List Char) (acc : List Json) :
    Option (Json × List Char) :=
  match fuel with
  | 0 => none
  | fuel + 1 =>
    match parseVal fuel cs with
    | none => none
    | some (v, rest) =>
      match skipWs rest with
      | ',' :: more => parseItems fuel more (acc ++ [v])
      | ']' :: more => some (Json.arr (acc ++ [v]), more)
      | _ => none

end

/-- Model of `JSON.parse`: parse a complete JSON document (trailing whitespace
allowed, trailing garbage rejected); `none` models a thrown `SyntaxError`. -/
def jsonParse (s : String) : Option Json :=
  match parseVal (s.length + 1) s.data with
  | some (v, rest) => if skipWs rest == [] then some v else none
  | none => none

/-- The `defaultDecision` local of
`CognitiveController._parseDecisionResponse`, returned on either parse
failure (no JSON span found, or `JSON.parse` throwing). -/
def failedParseDecision (now : Nat) : Decision :=
  { action := Json.str "idle"
    parameters := Json.obj []
    reasoning := Json.str "Failed to parse LLM response"
    timestamp := now }

/-- Model of `CognitiveController._parseDecisionResponse`: extract the brace span,
`JSON.parse` it, and fill the decision fields with `||`-defaults; on any
failure return `defaultDecision`.  Total: every branch of the source is
guarded (the `try`/`catch` catches the `JSON.parse` throw).  Also returns
the log entries the call emits.  `now` is the current time
(`Date.now() / 1000`), stamped into the result unconditionally. -/
def parseDecisionResponse (response : String) (now : Nat) :
    Decision × List LogEntry :=
  match extractJsonSpan response with
  | none => (failedParseDecision now, [LogEntry.noJsonWarning])
  | some jsonStr =>
    match jsonParse jsonStr with
    | none => (failedParseDecision now, [LogEntry.parseErrorLog])
    | some decision =>
      ({ action := orElseJson (jsonGet decision "action") (Json.str "idle")
         parameters := orElseJson (jsonGet decision "parameters") (Json.obj [])
         reasoning :=
           orElseJson (jsonGet decision "reasoning")
             (Json.str "No reasoning provided")
         timestamp := now }, [])

/-- A registered module as seen by the broadcast protocol: its name, whether
its `onDecision` throws, and the last decision it recorded (the test
modules record the decision in `onDecision`; a module that throws does so
after recording, which is what the spec's verification method observes). -/
structure BModule where
  name : String
  failing : Bool
  lastDecision : Option Decision

/-- One step of `_broadcastDecision`'s `for (const [name, module] of
Object.entries(this._modules))` loop, starting at index `i`:
`Object.entries` of an array yields pairs of the decimal index string and
the element, so the catch logs the index string, not `module.name`. -/
def broadcastGo (d : Decision) (i : Nat) :
    List BModule → List BModule × List LogEntry
  | [] => ([], [])
  | m :: rest =>
    let m' := { m with lastDecision := some d }
    let logsHere :=
      if m.failing then [LogEntry.broadcastError (toString i)] else []
    let (ms', logs') := broadcastGo d (i + 1) rest
    (m' :: ms', logsHere ++ logs')

/-- Model of `CognitiveController._broadcastDecision`: deliver `d` to every module in
registry order, sequentially, each call guarded by its own `try`/`catch`. -/
def broadcastDecision (d : Decision) (mods : List BModule) :
    List BModule × List LogEntry :=
  broadcastGo d 0 mods

/-- Enumerate a list with indices starting at `i` (the index/value pairs
`Object.entries` produces for an array, with numeric indices). -/
def enumFrom (i : Nat) : List BModule → List (Nat × BModule)
  | [] => []
  | m :: rest => (i, m) :: enumFrom (i + 1) rest

/-- Model of `CognitiveController._makeDecision`: compute the bottlenecked state
(fed to the not-yet-implemented LLM call), build the stub decision, and
append it to `AgentState.decisions` (initialising the field if absent). -/
def makeDecision (s : AgentState) (now : Nat) : Decision × AgentState :=
  let _bottleneckedState := createBottleneckedState s
  let decision : Decision :=
    { action := Json.str "idle"
      parameters := Json.obj []
      reasoning := Json.str "No decision made"
      timestamp := now }
  (decision, { s with decisions := some (s.decisions.getD [] ++ [decision]) })

/-- One full controller cycle (`CognitiveController.update`): make a
decision (appending it to the shared state) and broadcast it. -/
def controllerCycle (s : AgentState) (mods : List BModule) (now : Nat) :
    AgentState × List BModule :=
  let (d, s') := makeDecision s now
  (s', (broadcastDecision d mods).1)

/-- A sequence of controller cycles at the given times. -/
def runCycles (s : AgentState) (mods : List BModule) :
    List Nat → AgentState × List BModule
  | [] => (s, mods)
  | t :: ts =>
    let (s', mods') := controllerCycle s mods t
    runCycles s' mods' ts

/-- The observable state of one `Module` instance (`module.ts`, the
`setInterval`-based scheduler).  `intervalActive` tracks whether the
repeating timer installed by `start()` is live (`_intervalId !== null`);
`stopResolved` tracks whether the `_stopPromise` created by the most recent
`start()` has been resolved (which is what a pending `stop()` awaits);
`interval` and `name` are set by the constructor and never reassigned. -/
structure MState where
  name : String
  interval : Nat
  running : Bool
  intervalActive : Bool
  stopResolved : Bool
  updateCount : Nat
  errorCount : Nat
  errors : List LogEntry
  warnCount : Nat
deriving DecidableEq

/-- Scheduler-level events for one module: a `start()` call, a `stop()`
call, and one firing of the repeating timer (`_moduleLoop`). -/
inductive MAction where
  | start : MAction
  | stop : MAction
  | tick : MAction
deriving DecidableEq

/-- The state as the `Module` constructor leaves it. -/
def initModule (nm : String) (i : Nat) : MState :=
  { name := nm
    interval := i
    running := false
    intervalActive := false
    stopResolved := false
    updateCount := 0
    errorCount := 0
    errors := []
    warnCount := 0 }

/-- One event of the `Module` lifecycle, with the subclass behaviour
abstracted by `upThrows` (whether `update()` throws).
`start` on a running module warns and is a no-op; otherwise it sets the
flag, creates a fresh stop promise and installs the timer.  `stop` on a
stopped module warns; otherwise it only clears the flag (resolution happens
in the loop).  A `tick` of a live timer either observes `!running` — and
then clears the timer and resolves the stop promise — or runs `update()`
inside `try`/`catch`, counting an error (logged with the module's name)
instead of propagating. -/
def step (upThrows : Bool) (s : MState) : MAction → MState
  | MAction.start =>
    if s.running then { s with warnCount := s.warnCount + 1 }
    else { s with running := true, intervalActive := true, stopResolved := false }
  | MAction.stop =>
    if s.running then { s with running := false }
    else { s with warnCount := s.warnCount + 1 }
  | MAction.tick =>
    if s.intervalActive then
      if s.running then
        if upThrows then
          { s with updateCount := s.updateCount + 1
                   errorCount := s.errorCount + 1
                   errors := s.errors ++ [LogEntry.moduleError s.name] }
        else { s with updateCount := s.updateCount + 1 }
      else { s with intervalActive := false, stopResolved := true }
    else s

/-- Run a module through a sequence of scheduler events. -/
def runModule (upThrows : Bool) (s : MState) (acts : List MAction) : MState :=
  acts.foldl (step upThrows) s

/-- A module as registered with the scheduler world: constructor arguments
plus its `update()` behaviour. -/
structure WEntry where
  name : String
  interval : Nat
  throws : Bool

/-- The state of a freshly started module. -/
def startedModule (e : WEntry) : MState :=
  step e.throws (initModule e.name e.interval) MAction.start

/-- Timer semantics of `setInterval(i)`: the timer fires at global times
`i, 2i, 3i, …` after `start()`. -/
def fireIfDue (t : Nat) (p : WEntry × MState) : WEntry × MState :=
  if p.1.interval ∣ t then (p.1, step p.1.throws p.2 MAction.tick) else p

/-- Each registered module runs its own independent repeating timer; global
time advances in unit steps and each module fires exactly at the multiples
of its own interval.  No cross-module interaction exists in the source
loop, so a world step is the per-module step applied pointwise. -/
def worldRun (mods : List WEntry) : Nat → List (WEntry × MState)
  | 0 => mods.map (fun e => (e, startedModule e))
  | t + 1 => (worldRun mods t).map (fireIfDue (t + 1))

/-- A single module driven by its timer up to global time `t`. -/
def timedRun (e : WEntry) : Nat → MState
  | 0 => startedModule e
  | t + 1 =>
    if e.interval ∣ (t + 1) then step e.throws (timedRun e t) MAction.tick
    else timedRun e t

/-- Where the controller's `while`-loop currently is:
about to test `_running` at the loop head, awaiting `update()`, awaiting
the inter-cycle sleep, or exited. -/
inductive CCPhase where
  | idle : CCPhase
  | atCheck : CCPhase
  | inUpdate : CCPhase
  | sleeping : CCPhase
  | exited : CCPhase
deriving DecidableEq

/-- Observable state of the `CognitiveController` lifecycle
(`cognitive_controller.ts`): the `while (this._running)` loop with an
`await update()` and an `await sleep` per iteration. -/
structure CCState where
  running : Bool
  phase : CCPhase
  updatesStarted : Nat
  updatesFinished : Nat
  warnCount : Nat
deriving DecidableEq

/-- Controller events: `start()`, `stop()`, and one cooperative scheduling
step of its loop. -/
inductive CCAction where
  | start : CCAction
  | stop : CCAction
  | advance : CCAction
deriving DecidableEq

/-- The controller as constructed. -/
def ccInit : CCState :=
  { running := false
    phase := CCPhase.idle
    updatesStarted := 0
    updatesFinished := 0
    warnCount := 0 }

/-- One controller event.  `start` on a running controller warns and is a
no-op; otherwise it sets the flag and enters the loop.  `stop` on a stopped
controller warns; on a running one it only clears the flag and **returns
immediately** — unlike `Module.stop`, it awaits nothing, so the promise it
returns is resolved as soon as the call completes, even while the loop is
still mid-update or sleeping.  `advance` is one cooperative step of the
loop: the loop-head test either begins an `update()` or exits; an in-flight
`update()` completes; a sleep elapses back to the loop head. -/
def ccStep (s : CCState) : CCAction → CCState
  | CCAction.start =>
    if s.running then { s with warnCount := s.warnCount + 1 }
    else { s with running := true, phase := CCPhase.atCheck }
  | CCAction.stop =>
    if s.running then { s with running := false }
    else { s with warnCount := s.warnCount + 1 }
  | CCAction.advance =>
    match s.phase with
    | CCPhase.atCheck =>
      if s.running then
        { s with phase := CCPhase.inUpdate
                 updatesStarted := s.updatesStarted + 1 }
      else { s with phase := CCPhase.exited }
    | CCPhase.inUpdate =>
      { s with phase := CCPhase.sleeping
               updatesFinished := s.updatesFinished + 1 }
    | CCPhase.sleeping => { s with phase := CCPhase.atCheck }
    | _ => s

/-- Run the controller through a sequence of events. -/
def ccRun (s : CCState) (acts : List CCAction) : CCState :=
  acts.foldl ccStep s

/-- Per-module configuration entry (`config.modules[name]`). -/
structure ModuleConfigEntry where
  update_interval : Nat
deriving DecidableEq

/-- The configuration object: a mapping from module names to entries. -/
structure AgentConfig where
  modules : List (String × ModuleConfigEntry)

/-- The lookup `config.modules[name]` (absent key gives `undefined`). -/
def lookupModuleConfig (config : AgentConfig) (name : String) :
    Option ModuleConfigEntry :=
  config.modules.lookup name

/-- The `Module` constructor: given a name, a configuration and a reference
to the shared agent state, `assert` that the configuration has an entry for
the name (an entry object is always truthy), failing with the assertion
message otherwise, then capture `updateInterval` from the entry. -/
def moduleInit (name : String) (config : AgentConfig)
    (_agentState : AgentState) : Except String MState :=
  match lookupModuleConfig config name with
  | none => Except.error ("Module " ++ name ++ " not found in config")
  | some entry => Except.ok (initModule name entry.update_interval)

/-! ## Helper lemmas -/

theorem broadcastGo_spec (d : Decision) (mods : List BModule) : ∀ i : Nat,
    (broadcastGo d i mods).1.map (fun m => m.lastDecision)
      = mods.map (fun _ => some d) ∧
    (broadcastGo d i mods).1.map (fun m => m.name)
      = mods.map (fun m => m.name) ∧
    (broadcastGo d i mods).2 =
      ((enumFrom i mods).filter (fun p => p.2.failing)).map
        (fun p => LogEntry.broadcastError (toString p.1)) := by
  induction mods with
  | nil => intro i; simp [broadcastGo, enumFrom]
  | cons m rest ih =>
    intro i
    obtain ⟨h1, h2, h3⟩ := ih (i + 1)
    by_cases hf : m.failing <;>
      simp [broadcastGo, enumFrom, hf, h1, h2, h3]

/-! ## C1 — bottleneck reduction -/

/-- C1 (amended): `_createBottleneckedState` is a pure, total function:
`inventory` and `location` are copied verbatim (defaulting to empty map /
origin when absent); when `memory` is present, the projection's `memory`
field is `memory.relevantMemories` if that sub-field is present and truthy,
else an empty sequence — but when `memory` is absent the projection's
`memory` field is itself absent (not an empty sequence); likewise for
`actionAwareness` with `actionAwareness.actionFeedback`. -/
theorem createBottleneckedState_spec (s : AgentState) :
    (createBottleneckedState s).inventory = s.inventory.getD [] ∧
    (createBottleneckedState s).location = s.location.getD ⟨0, 0, 0⟩ ∧
    (s.memory = none → (createBottleneckedState s).memory = none) ∧
    (∀ m, s.memory = some m → recGet m "relevantMemories" = none →
      (createBottleneckedState s).memory = some (Json.arr [])) ∧
    (∀ m v, s.memory = some m → recGet m "relevantMemories" = some v →
      jsTruthy v = true → (createBottleneckedState s).memory = some v) ∧
    (s.actionAwareness = none →
      (createBottleneckedState s).actionAwareness = none) ∧
    (∀ a, s.actionAwareness = some a → recGet a "actionFeedback" = none →
      (createBottleneckedState s).actionAwareness = some (Json.arr [])) ∧
    (∀ a v, s.actionAwareness = some a → recGet a "actionFeedback" = some v →
      jsTruthy v = true →
      (createBottleneckedState s).actionAwareness = some v) := by
  refine ⟨rfl, rfl, ?_, ?_, ?_, ?_, ?_, ?_⟩
  · intro h; simp [createBottleneckedState, h]
  · intro m hm hr; simp [createBottleneckedState, hm, orElseJson, hr]
  · intro m v hm hr hv
    simp [createBottleneckedState, hm, orElseJson, hr, hv]
  · intro h; simp [createBottleneckedState, h]
  · intro a ha hr; simp [createBottleneckedState, ha, orElseJson, hr]
  · intro a v ha hr hv
    simp [createBottleneckedState, ha, orElseJson, hr, hv]

/-- The spec's concrete test state: inventory with diamond/iron, location
(10,20,30), one relevant memory, one action feedback entry. -/
def fullTestState : AgentState :=
  { inventory := some [("diamond", 1), ("iron", 2)]
    location := some ⟨10, 20, 30⟩
    memory := some [("relevantMemories", Json.arr [Json.str "test memory"])]
    social := some []
    actionAwareness := some [("actionFeedback", Json.arr [Json.str "test feedback"])]
    decisions := some [] }

/-- A runtime agent state whose `memory` and `actionAwareness` fields are
absent. -/
def noMemoryState : AgentState :=
  { inventory := some []
    location := some ⟨0, 0, 0⟩
    memory := none
    social := none
    actionAwareness := none
    decisions := none }

/-- Witness for `createBottleneckedState_spec` at the spec's test vector and
at a state with `memory` absent. -/
theorem createBottleneckedState_spec_witness :
    (createBottleneckedState fullTestState).memory
      = some (Json.arr [Json.str "test memory"]) ∧
    (createBottleneckedState fullTestState).actionAwareness
      = some (Json.arr [Json.str "test feedback"]) ∧
    (createBottleneckedState fullTestState).inventory
      = [("diamond", 1), ("iron", 2)] ∧
    (createBottleneckedState fullTestState).location = ⟨10, 20, 30⟩ ∧
    (createBottleneckedState noMemoryState).memory = none := by
  refine ⟨?_, ?_, ?_, ?_, ?_⟩
  · exact (createBottleneckedState_spec fullTestState).2.2.2.2.1
      [("relevantMemories", Json.arr [Json.str "test memory"])]
      (Json.arr [Json.str "test memory"]) rfl rfl rfl
  · exact (createBottleneckedState_spec fullTestState).2.2.2.2.2.2.2
      [("actionFeedback", Json.arr [Json.str "test feedback"])]
      (Json.arr [Json.str "test feedback"]) rfl rfl rfl
  · exact (createBottleneckedState_spec fullTestState).1
  · exact (createBottleneckedState_spec fullTestState).2.1
  · exact (createBottleneckedState_spec noMemoryState).2.2.1 rfl

/-- C1 counterexample: for an agent state whose `memory` field is absent,
the projection's `memory` field is absent as well — not an empty sequence
as the claim states (the `if (agentState.memory)` guard skips the
assignment entirely). -/
theorem createBottleneckedState_memory_absent_cex :
    (createBottleneckedState noMemoryState).memory = none ∧
    (createBottleneckedState noMemoryState).memory ≠ some (Json.arr []) := by
  constructor
  · rfl
  · intro h
    rw [show (createBottleneckedState noMemoryState).memory = none from rfl] at h
    exact Option.noConfusion h

/-! ## C10 — createAgentState defaults -/

/-- C10: `createAgentState` returns a fully-initialized agent state: every
field present in its default/empty value (empty inventory, origin location,
empty memory/social/actionAwareness maps, empty decisions sequence); in
particular the bottleneck reduction of a fresh state sees every field
present and yields the all-defaults projection. -/
theorem createAgentState_defaults :
    createAgentState.inventory = some [] ∧
    createAgentState.location = some ⟨0, 0, 0⟩ ∧
    createAgentState.memory = some [] ∧
    createAgentState.social = some [] ∧
    createAgentState.actionAwareness = some [] ∧
    createAgentState.decisions = some [] ∧
    createBottleneckedState createAgentState =
      { inventory := []
        location := ⟨0, 0, 0⟩
        memory := some (Json.arr [])
        actionAwareness := some (Json.arr []) } :=
  ⟨rfl, rfl, rfl, rfl, rfl, rfl, rfl⟩

/-! ## C2 — decision broadcast -/

/-- C2 (amended): broadcasting a decision over a registry of `n` modules
invokes `onDecision` on all `n` modules in registry order, sequentially;
an exception from one module's `onDecision` is caught and logged — with the
module's registry index as key (the `for (const [name, module] of
Object.entries(...))` loop runs over an array, so `name` is the decimal
index string, not the module's name) — and the broadcast continues, so
every module, including neighbours of a throwing one, records the decision. -/
theorem broadcastDecision_reaches_all (d : Decision) (mods : List BModule) :
    (broadcastDecision d mods).1.map (fun m => m.lastDecision)
      = mods.map (fun _ => some d) ∧
    (broadcastDecision d mods).1.map (fun m => m.name)
      = mods.map (fun m => m.name) ∧
    (broadcastDecision d mods).2 =
      ((enumFrom 0 mods).filter (fun p => p.2.failing)).map
        (fun p => LogEntry.broadcastError (toString p.1)) :=
  broadcastGo_spec d mods 0

/-- The decision broadcast in the repository's controller test. -/
def testBroadcastDecision : Decision :=
  { action := Json.str "test_action"
    parameters := Json.obj [("test", Json.bool true)]
    reasoning := Json.str "Test decision"
    timestamp := 0 }

/-- A registry of two modules where the second (named "memory") throws in
`onDecision`. -/
def testRegistry : List BModule :=
  [{ name := "skill_execution", failing := false, lastDecision := none },
   { name := "memory", failing := true, lastDecision := none }]

/-- C2 counterexample: when the module named "memory" (at registry index 1)
throws in `onDecision`, the failure is logged under the key "1" — the
array index produced by `Object.entries` — and not under the module's name
"memory", so the claim's "logged with that module's name" fails. -/
theorem broadcastDecision_log_key_cex :
    (broadcastDecision testBroadcastDecision testRegistry).2
      = [LogEntry.broadcastError "1"] ∧
    [LogEntry.broadcastError "1"] ≠ [LogEntry.broadcastError "memory"] :=
  ⟨rfl, by decide⟩

/-! ## C3 — decision-text parsing -/

/-- C3 (amended): `_parseDecisionResponse` is total and falls back
field-by-field, but both failure modes return the **same** default decision
(reasoning `"Failed to parse LLM response"`): an input with no
brace-delimited span yields that default together with the
`"No JSON found in LLM response"` warning in the log; an input whose
extracted span fails to parse yields the same default with a parse-error
log entry; an input with a well-formed span missing the `reasoning` field
yields `reasoning = "No reasoning provided"` while supplied (truthy)
`action` and `parameters` are preserved; and the timestamp is always
stamped with the current time regardless of the source text. -/
theorem parseDecisionResponse_fallback (r : String) (now : Nat) :
    (extractJsonSpan r = none →
      parseDecisionResponse r now
        = (failedParseDecision now, [LogEntry.noJsonWarning])) ∧
    (∀ sp, extractJsonSpan r = some sp → jsonParse sp = none →
      parseDecisionResponse r now
        = (failedParseDecision now, [LogEntry.parseErrorLog])) ∧
    (∀ sp j a p, extractJsonSpan r = some sp → jsonParse sp = some j →
      jsonGet j "reasoning" = none →
      jsonGet j "action" = some a → jsTruthy a = true →
      jsonGet j "parameters" = some p → jsTruthy p = true →
      parseDecisionResponse r now =
        ({ action := a
           parameters := p
           reasoning := Json.str "No reasoning provided"
           timestamp := now }, [])) ∧
    (parseDecisionResponse r now).1.timestamp = now := by
  refine ⟨?_, ?_, ?_, ?_⟩
  · intro h; simp [parseDecisionResponse, h]
  · intro sp h1 h2; simp [parseDecisionResponse, h1, h2]
  · intro sp j a p h1 h2 h3 h4 h5 h6 h7
    simp [parseDecisionResponse, h1, h2, orElseJson, h3, h4, h5, h6, h7]
  · unfold parseDecisionResponse
    rcases hE : extractJsonSpan r with _ | sp
    · rfl
    · rcases hP : jsonParse sp with _ | j <;> simp [hP, failedParseDecision]

/-- Witness for `parseDecisionResponse_fallback`: a brace-free input, an
unparsable span, and a well-formed span with `action` and `parameters` but
no `reasoning`. -/
theorem parseDecisionResponse_fallback_witness :
    parseDecisionResponse "hello" 3
      = (failedParseDecision 3, [LogEntry.noJsonWarning]) ∧
    parseDecisionResponse "\x7bnope\x7d" 5
      = (failedParseDecision 5, [LogEntry.parseErrorLog]) ∧
    parseDecisionResponse
        "x\x7b\"action\": \"go\", \"parameters\": \x7b\"x\": 1\x7d\x7d y" 7
      = ({ action := Json.str "go"
           parameters := Json.obj [("x", Json.num 1)]
           reasoning := Json.str "No reasoning provided"
           timestamp := 7 }, []) := by
  refine ⟨?_, ?_, ?_⟩
  · exact (parseDecisionResponse_fallback "hello" 3).1 rfl
  · exact (parseDecisionResponse_fallback "\x7bnope\x7d" 5).2.1
      "\x7bnope\x7d" rfl rfl
  · exact (parseDecisionResponse_fallback
      "x\x7b\"action\": \"go\", \"parameters\": \x7b\"x\": 1\x7d\x7d y" 7).2.2.1
      "\x7b\"action\": \"go\", \"parameters\": \x7b\"x\": 1\x7d\x7d"
      (Json.obj [("action", Json.str "go"),
                 ("parameters", Json.obj [("x", Json.num 1)])])
      (Json.str "go") (Json.obj [("x", Json.num 1)])
      rfl rfl rfl rfl rfl rfl rfl

/-- C3 counterexample: an input containing no brace-delimited span yields a
decision whose reasoning is `"Failed to parse LLM response"` — the very
same default decision as the unparsable-span case — and the
`"No JSON found"` text appears only as a logged warning, so the claim's
distinct "No JSON found" default decision does not exist in the code. -/
theorem parseDecisionResponse_no_json_cex :
    (parseDecisionResponse "no braces here" 0).1.reasoning
      = Json.str "Failed to parse LLM response" ∧
    (parseDecisionResponse "no braces here" 0).1
      = (parseDecisionResponse "\x7b bad json \x7d" 0).1 ∧
    (parseDecisionResponse "no braces here" 0).2 = [LogEntry.noJsonWarning] ∧
    Json.str "Failed to parse LLM response"
      ≠ Json.str "No JSON found in LLM response" := by
  refine ⟨rfl, rfl, rfl, ?_⟩
  intro h
  injection h with h'
  exact absurd h' (by decide)

/-! ## C4 — Module.stop drain guarantee -/

/-- Invariant of the `Module` scheduler: once the stop promise has
resolved, the running flag is false and the repeating timer is cleared. -/
def stopResolvedInv (s : MState) : Prop :=
  s.stopResolved = true → (s.running = false ∧ s.intervalActive = false)

theorem step_preserves_stopResolvedInv (up : Bool) (s : MState) (a : MAction)
    (h : stopResolvedInv s) : stopResolvedInv (step up s a) := by
  cases a <;> by_cases hr : s.running <;> by_cases hi : s.intervalActive <;>
    cases up <;> simp_all [step, stopResolvedInv]

theorem runModule_preserves_stopResolvedInv (up : Bool)
    (acts : List MAction) (s : MState) (h : stopResolvedInv s) :
    stopResolvedInv (runModule up s acts) := by
  induction acts generalizing s with
  | nil => exact h
  | cons a rest ih =>
    exact ih (step up s a) (step_preserves_stopResolvedInv up s a h)

/-- A stopped-and-drained module state: flag cleared, timer cleared. -/
def drained (s : MState) : Prop :=
  s.running = false ∧ s.intervalActive = false

theorem step_drained (up : Bool) (s : MState) (a : MAction)
    (hna : a ≠ MAction.start) (h : drained s) :
    drained (step up s a) ∧ (step up s a).updateCount = s.updateCount := by
  cases a with
  | start => exact absurd rfl hna
  | stop => simp [drained, step, h.1, h.2]
  | tick => simp [drained, step, h.1, h.2]

theorem runModule_drained (up : Bool) (acts : List MAction) (s : MState)
    (hna : MAction.start ∉ acts) (h : drained s) :
    drained (runModule up s acts) ∧
    (runModule up s acts).updateCount = s.updateCount := by
  induction acts generalizing s with
  | nil => exact ⟨h, rfl⟩
  | cons a rest ih =>
    have hne : a ≠ MAction.start := fun he => hna (he ▸ List.mem_cons_self a rest)
    have hrest : MAction.start ∉ rest := fun hm => hna (List.mem_cons_of_mem a hm)
    obtain ⟨hd, hc⟩ := step_drained up s a hne h
    obtain ⟨hd', hc'⟩ := ih (step up s a) hrest hd
    exact ⟨hd', by rw [runModule] at hc' ⊢ ; simpa [hc] using hc'⟩

/-- C4: `stop()` flips the running flag without resolving the stop promise
itself; the promise resolves only when a tick of the loop observes the
cleared flag and clears the timer; and once the promise has resolved (for a
module driven through any event sequence from construction), the running
flag is false and — as long as the module is not started again — no further
`update()` invocation ever executes: the update count is frozen and the
flag stays false. -/
theorem module_stop_guarantee (up : Bool) (nm : String) (i : Nat)
    (acts₁ acts₂ : List MAction)
    (h : (runModule up (initModule nm i) acts₁).stopResolved = true)
    (hna : MAction.start ∉ acts₂) :
    (runModule up (initModule nm i) acts₁).running = false ∧
    (runModule up (runModule up (initModule nm i) acts₁) acts₂).updateCount
      = (runModule up (initModule nm i) acts₁).updateCount ∧
    (runModule up (runModule up (initModule nm i) acts₁) acts₂).running
      = false ∧
    (∀ s : MState, s.running = true →
      (step up s MAction.stop).running = false ∧
      (step up s MAction.stop).stopResolved = s.stopResolved) := by
  have hinv : stopResolvedInv (runModule up (initModule nm i) acts₁) :=
    runModule_preserves_stopResolvedInv up acts₁ (initModule nm i)
      (fun hsr => absurd hsr (by simp [initModule]))
  obtain ⟨hrun, hint⟩ := hinv h
  obtain ⟨hd, hc⟩ :=
    runModule_drained up acts₂ (runModule up (initModule nm i) acts₁) hna
      ⟨hrun, hint⟩
  refine ⟨hrun, hc, hd.1, ?_⟩
  intro s hs
  simp [step, hs]

/-- Witness for `module_stop_guarantee`: start, stop, then the tick that
resolves the stop promise; afterwards further ticks and a second stop call
leave the update count at zero. -/
theorem module_stop_guarantee_witness :
    (runModule false (initModule "skill_execution" 100)
        [MAction.start, MAction.stop, MAction.tick]).stopResolved = true ∧
    MAction.start ∉ [MAction.tick, MAction.stop, MAction.tick] ∧
    (runModule false
        (runModule false (initModule "skill_execution" 100)
          [MAction.start, MAction.stop, MAction.tick])
        [MAction.tick, MAction.stop, MAction.tick]).updateCount
      = (runModule false (initModule "skill_execution" 100)
          [MAction.start, MAction.stop, MAction.tick]).updateCount ∧
    (runModule false (initModule "skill_execution" 100)
        [MAction.start, MAction.stop, MAction.tick]).running = false := by
  refine ⟨by decide, by decide, ?_, ?_⟩
  · exact (module_stop_guarantee false "skill_execution" 100
      [MAction.start, MAction.stop, MAction.tick]
      [MAction.tick, MAction.stop, MAction.tick] (by decide) (by decide)).2.1
  · exact (module_stop_guarantee false "skill_execution" 100
      [MAction.start, MAction.stop, MAction.tick]
      [MAction.tick, MAction.stop, MAction.tick] (by decide) (by decide)).1

/-! ## C5 / C8 — the timer scheduler -/

theorem timedRun_char (e : WEntry) (t : Nat) :
    timedRun e t =
      { name := e.name
        interval := e.interval
        running := true
        intervalActive := true
        stopResolved := false
        updateCount := t / e.interval
        errorCount := if e.throws then t / e.interval else 0
        errors :=
          if e.throws then
            List.replicate (t / e.interval) (LogEntry.moduleError e.name)
          else []
        warnCount := 0 } := by
  induction t with
  | zero =>
    cases ht : e.throws <;>
      simp [timedRun, startedModule, step, initModule, ht]
  | succ t ih =>
    by_cases hd : e.interval ∣ (t + 1)
    · cases ht : e.throws <;>
        simp [timedRun, hd, ih, step, ht, Nat.succ_div, List.replicate_succ']
    · cases ht : e.throws <;>
        simp [timedRun, hd, ih, Nat.succ_div, ht]

theorem worldRun_append (xs ys : List WEntry) (t : Nat) :
    worldRun (xs ++ ys) t = worldRun xs t ++ worldRun ys t := by
  induction t with
  | zero => simp [worldRun]
  | succ t ih => simp [worldRun, ih]

theorem worldRun_cons (e : WEntry) (rest : List WEntry) (t : Nat) :
    worldRun (e :: rest) t = (e, timedRun e t) :: worldRun rest t := by
  induction t with
  | zero => simp [worldRun, timedRun]
  | succ t ih =>
    by_cases hd : e.interval ∣ (t + 1) <;>
      simp [worldRun, ih, timedRun, fireIfDue, hd]

/-- C5: a module whose `update()` always throws still ticks on schedule
indefinitely — after elapsed time `t` it has run `update()` exactly
`t / i` times, each failure caught and logged with the module's name, the
error count equals the tick count, the running flag and the timer stay
live — and, registered in a world of concurrently scheduled modules, its
state is exactly the state of its isolated run: failures never propagate
to (or from) the other modules. -/
theorem module_errors_isolated (nm : String) (i t : Nat) (h : 0 < i) :
    (timedRun ⟨nm, i, true⟩ t).running = true ∧
    (timedRun ⟨nm, i, true⟩ t).intervalActive = true ∧
    (timedRun ⟨nm, i, true⟩ t).updateCount = t / i ∧
    (timedRun ⟨nm, i, true⟩ t).errorCount = t / i ∧
    (timedRun ⟨nm, i, true⟩ t).errors
      = List.replicate (t / i) (LogEntry.moduleError nm) ∧
    (∀ (pre post : List WEntry) (e : WEntry) (u : Nat),
      worldRun (pre ++ e :: post) u
        = worldRun pre u ++ (e, timedRun e u) :: worldRun post u) := by
  refine ⟨?_, ?_, ?_, ?_, ?_, ?_⟩
  · rw [timedRun_char]
  · rw [timedRun_char]
  · rw [timedRun_char]
  · rw [timedRun_char] ; simp
  · rw [timedRun_char] ; simp
  · intro pre post e u
    rw [worldRun_append, worldRun_cons]

/-- Witness for `module_errors_isolated`: a throwing module with interval 2
observed after 6 elapsed units has ticked, errored and logged 3 times and
is still running; and the two-module world containing it decomposes into
the isolated runs. -/
theorem module_errors_isolated_witness :
    (0 < 2) ∧
    (timedRun ⟨"memory", 2, true⟩ 6).updateCount = 3 ∧
    (timedRun ⟨"memory", 2, true⟩ 6).errorCount = 3 ∧
    (timedRun ⟨"memory", 2, true⟩ 6).errors
      = List.replicate 3 (LogEntry.moduleError "memory") ∧
    (timedRun ⟨"memory", 2, true⟩ 6).running = true ∧
    worldRun [⟨"skill_execution", 3, false⟩, ⟨"memory", 2, true⟩] 6
      = [(⟨"skill_execution", 3, false⟩,
          timedRun ⟨"skill_execution", 3, false⟩ 6),
         (⟨"memory", 2, true⟩, timedRun ⟨"memory", 2, true⟩ 6)] := by
  refine ⟨by decide, ?_, ?_, ?_, ?_, ?_⟩
  · exact (module_errors_isolated "memory" 2 6 (by decide)).2.2.1
  · exact (module_errors_isolated "memory" 2 6 (by decide)).2.2.2.1
  · exact (module_errors_isolated "memory" 2 6 (by decide)).2.2.2.2.1
  · exact (module_errors_isolated "memory" 2 6 (by decide)).1
  · exact (module_errors_isolated "memory" 2 6 (by decide)).2.2.2.2.2
      [] [⟨"memory", 2, true⟩] ⟨"skill_execution", 3, false⟩ 6

/-- C8: for two registered modules with distinct intervals, after elapsing
time `t` from start, each module has had `update()` invoked exactly
`⌊t / iₖ⌋` times, a count that depends only on its own interval (the
right-hand side mentions neither the other module's interval nor its
behaviour). -/
theorem independent_tick_counts (n1 n2 : String) (i1 i2 : Nat)
    (u1 u2 : Bool) (t : Nat) (h1 : 0 < i1) (h2 : 0 < i2) (hne : i1 ≠ i2) :
    (worldRun [⟨n1, i1, u1⟩, ⟨n2, i2, u2⟩] t).map (fun p => p.2.updateCount)
      = [t / i1, t / i2] := by
  have hnil : worldRun [] t = [] := by
    induction t with
    | zero => simp [worldRun]
    | succ u ih => simp [worldRun, ih]
  rw [worldRun_cons, worldRun_cons, hnil]
  simp [timedRun_char]

/-- Witness for `independent_tick_counts`: two modules with intervals 100
and 200 observed after 200 elapsed time units have ticked twice and once
respectively. -/
theorem independent_tick_counts_witness :
    (0 < 100) ∧ (0 < 200) ∧ (100 ≠ 200) ∧
    (worldRun [⟨"skill_execution", 100, false⟩, ⟨"memory", 200, false⟩] 200).map
        (fun p => p.2.updateCount) = [2, 1] := by
  refine ⟨by decide, by decide, by decide, ?_⟩
  exact independent_tick_counts "skill_execution" "memory" 100 200
    false false 200 (by decide) (by decide) (by decide)

/-! ## C6 — Coordinator lifecycle vs Module lifecycle -/

theorem ccStep_no_start_frozen (s : CCState) (a : CCAction)
    (hna : a ≠ CCAction.start) (h : s.running = false) :
    (ccStep s a).running = false ∧
    (ccStep s a).updatesStarted = s.updatesStarted := by
  cases a with
  | start => exact absurd rfl hna
  | stop => simp [ccStep, h]
  | advance => cases hp : s.phase <;> simp [ccStep, hp, h]

theorem ccRun_no_start_frozen (acts : List CCAction) (s : CCState)
    (hna : CCAction.start ∉ acts) (h : s.running = false) :
    (ccRun s acts).running = false ∧
    (ccRun s acts).updatesStarted = s.updatesStarted := by
  induction acts generalizing s with
  | nil => exact ⟨h, rfl⟩
  | cons a rest ih =>
    have hne : a ≠ CCAction.start := fun he => hna (he ▸ List.mem_cons_self a rest)
    have hrest : CCAction.start ∉ rest := fun hm => hna (List.mem_cons_of_mem a hm)
    obtain ⟨hr, hc⟩ := ccStep_no_start_frozen s a hne h
    obtain ⟨hr', hc'⟩ := ih (ccStep s a) hrest hr
    exact ⟨hr', by rw [ccRun] at hc' ⊢ ; simpa [hc] using hc'⟩

/-- C6 (amended): the Coordinator shares the Module's warn-and-no-op
lifecycle — `start()` on a running controller and `stop()` on a stopped one
only emit a warning — and after `stop()` clears the flag no **new** update
ever begins (without a restart); but `stop()` itself only clears the flag
and returns immediately, awaiting nothing, so unlike `Module.stop()` it
does not guarantee that the loop has drained when it resolves. -/
theorem controller_lifecycle (s : CCState) :
    (s.running = true →
      ccStep s CCAction.start = { s with warnCount := s.warnCount + 1 }) ∧
    (s.running = false →
      ccStep s CCAction.stop = { s with warnCount := s.warnCount + 1 }) ∧
    (s.running = true →
      ccStep s CCAction.stop = { s with running := false }) ∧
    (∀ acts, s.running = false → CCAction.start ∉ acts →
      (ccRun s acts).updatesStarted = s.updatesStarted ∧
      (ccRun s acts).running = false) := by
  refine ⟨?_, ?_, ?_, ?_⟩
  · intro h; simp [ccStep, h]
  · intro h; simp [ccStep, h]
  · intro h; simp [ccStep, h]
  · intro acts h hna
    obtain ⟨hr, hc⟩ := ccRun_no_start_frozen acts s hna h
    exact ⟨hc, hr⟩

/-- The controller started and mid-`update()` (one loop iteration begun,
not yet finished). -/
def ccMidUpdate : CCState :=
  ccRun ccInit [CCAction.start, CCAction.advance]

/-- The controller immediately after a `stop()` call made while `update()`
is in flight: `stop()` has already resolved at this point. -/
def ccAfterStop : CCState := ccStep ccMidUpdate CCAction.stop

/-- Witness for `controller_lifecycle` at concrete states. -/
theorem controller_lifecycle_witness :
    ccStep (ccStep ccInit CCAction.start) CCAction.start
      = { ccStep ccInit CCAction.start with
          warnCount := (ccStep ccInit CCAction.start).warnCount + 1 } ∧
    ccStep ccInit CCAction.stop
      = { ccInit with warnCount := ccInit.warnCount + 1 } ∧
    (ccRun ccAfterStop [CCAction.advance, CCAction.advance]).updatesStarted
      = ccAfterStop.updatesStarted := by
  refine ⟨?_, ?_, ?_⟩
  · exact (controller_lifecycle (ccStep ccInit CCAction.start)).1 rfl
  · exact (controller_lifecycle ccInit).2.1 rfl
  · exact ((controller_lifecycle ccAfterStop).2.2.2
      [CCAction.advance, CCAction.advance] (by decide) (by decide)).1

/-- C6 counterexample: `CognitiveController.stop()` resolves immediately
after clearing the flag.  Here it is called while the loop is awaiting
`update()`: after `stop()` has resolved the controller is still
mid-update, and the in-flight update then **completes after `stop()`
resolved** — cycle work executing after `stop()` resolves.  `Module.stop()`
rules this out, because its promise resolves only once the loop has
observed the flag and signalled completion; the claimed "same guarantee as
Module.stop()" therefore fails. -/
theorem controller_stop_no_drain_cex :
    ccAfterStop.running = false ∧
    ccAfterStop.phase = CCPhase.inUpdate ∧
    (ccStep ccAfterStop CCAction.advance).updatesFinished
      = ccAfterStop.updatesFinished + 1 ∧
    (ccStep ccAfterStop CCAction.advance).phase = CCPhase.sleeping := by
  decide

/-! ## C7 — Module construction contract -/

theorem step_preserves_interval (up : Bool) (s : MState) (a : MAction) :
    (step up s a).interval = s.interval := by
  cases a <;> by_cases hr : s.running <;> by_cases hi : s.intervalActive <;>
    cases up <;> simp [step, hr, hi]

theorem runModule_preserves_interval (up : Bool) (acts : List MAction)
    (s : MState) : (runModule up s acts).interval = s.interval := by
  induction acts generalizing s with
  | nil => rfl
  | cons a rest ih =>
    have h1 : runModule up s (a :: rest) = runModule up (step up s a) rest := rfl
    rw [h1, ih (step up s a), step_preserves_interval]

/-- C7: the `Module` constructor fails if and only if the configuration has
no entry named exactly after the module — failing with the assertion
message naming the module — and otherwise succeeds and captures
`updateInterval` from that entry's `update_interval`, which no lifecycle
event thereafter ever changes. -/
theorem module_constructor_contract (name : String) (config : AgentConfig)
    (st : AgentState) :
    ((∃ e, lookupModuleConfig config name = some e) ↔
      ∃ m, moduleInit name config st = Except.ok m) ∧
    (lookupModuleConfig config name = none →
      moduleInit name config st
        = Except.error ("Module " ++ name ++ " not found in config")) ∧
    (∀ e m, lookupModuleConfig config name = some e →
      moduleInit name config st = Except.ok m →
      m.interval = e.update_interval ∧ m.name = name ∧
      ∀ (up : Bool) (acts : List MAction),
        (runModule up m acts).interval = e.update_interval) := by
  refine ⟨?_, ?_, ?_⟩
  · constructor
    · rintro ⟨e, he⟩
      exact ⟨initModule name e.update_interval, by simp [moduleInit, he]⟩
    · rintro ⟨m, hm⟩
      rcases hl : lookupModuleConfig config name with _ | e
      · rw [moduleInit, hl] at hm; exact absurd hm (by simp)
      · exact ⟨e, rfl⟩
  · intro h; simp [moduleInit, h]
  · intro e m he hm
    rw [moduleInit, he] at hm
    have hme : m = initModule name e.update_interval := by
      injection hm with h' ; exact h'.symm
    subst hme
    exact ⟨rfl, rfl, fun up acts => by
      rw [runModule_preserves_interval] ; rfl⟩

/-- The test configuration: a single entry for "skill_execution" with
update interval 100. -/
def testConfig : AgentConfig :=
  { modules := [("skill_execution", { update_interval := 100 })] }

/-- Witness for `module_constructor_contract`: construction succeeds for
"skill_execution" (capturing interval 100, immutable under lifecycle
events) and fails for the unconfigured name "invalid" with the assertion
message. -/
theorem module_constructor_contract_witness :
    (∃ m, moduleInit "skill_execution" testConfig createAgentState
      = Except.ok m) ∧
    moduleInit "invalid" testConfig createAgentState
      = Except.error "Module invalid not found in config" ∧
    (initModule "skill_execution" 100).interval = 100 ∧
    (runModule true (initModule "skill_execution" 100)
      [MAction.start, MAction.tick, MAction.stop, MAction.tick]).interval
      = 100 := by
  refine ⟨?_, ?_, ?_, ?_⟩
  · exact (module_constructor_contract "skill_execution" testConfig
      createAgentState).1.mp ⟨{ update_interval := 100 }, rfl⟩
  · exact (module_constructor_contract "invalid" testConfig
      createAgentState).2.1 rfl
  · exact ((module_constructor_contract "skill_execution" testConfig
      createAgentState).2.2 { update_interval := 100 }
      (initModule "skill_execution" 100) rfl rfl).1
  · exact ((module_constructor_contract "skill_execution" testConfig
      createAgentState).2.2 { update_interval := 100 }
      (initModule "skill_execution" 100) rfl rfl).2.2 true
      [MAction.start, MAction.tick, MAction.stop, MAction.tick]

/-! ## C9 — decisions are append-only -/

/-- C9: every coordinator decision cycle appends exactly one decision to
`AgentState.decisions` and leaves all previously appended entries
unchanged: across any sequence of cycles the length grows by exactly the
number of cycles (in particular it is non-decreasing) and the original
sequence survives as the initial segment (never truncated). -/
theorem decisions_append_only (s : AgentState) (mods : List BModule)
    (ts : List Nat) :
    ((runCycles s mods ts).1.decisions.getD []).length
      = (s.decisions.getD []).length + ts.length ∧
    ((runCycles s mods ts).1.decisions.getD []).take
        (s.decisions.getD []).length
      = s.decisions.getD [] := by
  induction ts generalizing s mods with
  | nil => simp [runCycles]
  | cons t rest ih =>
    have hcycle :
        (controllerCycle s mods t).1.decisions.getD []
          = s.decisions.getD [] ++
            [{ action := Json.str "idle"
               parameters := Json.obj []
               reasoning := Json.str "No decision made"
               timestamp := t }] := by
      simp [controllerCycle, makeDecision]
    obtain ⟨h1, h2⟩ := ih (controllerCycle s mods t).1 (controllerCycle s mods t).2
    have hrun : runCycles s mods (t :: rest)
        = runCycles (controllerCycle s mods t).1 (controllerCycle s mods t).2 rest := by
      rw [runCycles]
    constructor
    · rw [hrun, h1, hcycle]
      simp ; omega
    · rw [hrun]
      have hlen : (s.decisions.getD []).length
          ≤ ((controllerCycle s mods t).1.decisions.getD []).length := by
        rw [hcycle] ; simp
      calc ((runCycles (controllerCycle s mods t).1
              (controllerCycle s mods t).2 rest).1.decisions.getD []).take
              (s.decisions.getD []).length
          = (((runCycles (controllerCycle s mods t).1
              (controllerCycle s mods t).2 rest).1.decisions.getD []).take
              ((controllerCycle s mods t).1.decisions.getD []).length).take
              (s.decisions.getD []).length := by
            rw [List.take_take, Nat.min_eq_left hlen]
        _ = ((controllerCycle s mods t).1.decisions.getD []).take
              (s.decisions.getD []).length := by rw [h2]
        _ = s.decisions.getD [] := by
            rw [hcycle, List.take_append_of_le_length (Nat.le_refl _),
              List.take_length]
